import Mathlib

/-
  Verification development for the invoice-generator repository.

  Shallow embedding conventions:
  * ISO calendar dates (YYYY-MM-DD strings manipulated through the UTC
    Date object in the source) are modelled as integers counting days
    since 1970-01-01.  Lexicographic comparison of ISO date strings
    coincides with integer comparison of day numbers, and the UTC
    day-of-week of day number d is (d + 4) mod 7 (1970-01-01 was a
    Thursday, and getUTCDay numbers Sunday as 0).
  * An absent, empty or unparseable date string (parseISODate returning
    null) is modelled as Option.none; the "today" fallback used by
    getPreviousBusinessDay is an explicit parameter.
  * JavaScript numbers are modelled as rationals.
  * The NBP rate source is modelled as a function from the queried day
    to the observable outcome of one request, following the interface
    boundary of the source (a 404, a non-ok response, an ok response
    with or without a numeric mid rate, or a rejected fetch).
-/

namespace InvoiceGen

/-! ## Business-day resolver (src/unnamed/part_002, lines 33-71) -/

/-- UTC day of week of a day number, as returned by getUTCDay:
0 is Sunday, 6 is Saturday. -/
def dayOfWeek (d : Int) : Int := (d + 4) % 7

/-- The weekend test of the while loop in getPreviousBusinessDay:
date.getUTCDay() === 0 || date.getUTCDay() === 6. -/
def isWeekendDay (d : Int) : Bool := dayOfWeek d == 0 || dayOfWeek d == 6

/-- Fuel-bounded version of the while loop in getPreviousBusinessDay that
steps one day back while the current day is a weekend.  At most two
consecutive days are weekend days, so any fuel of at least 3 computes the
loop's fixpoint; we pass fuel 7. -/
def skipWeekendAux : Nat → Int → Int
  | 0, d => d
  | n + 1, d => if isWeekendDay d then skipWeekendAux n (d - 1) else d

/-- The while loop of getPreviousBusinessDay: keep subtracting one day
while the day falls on a weekend. -/
def skipWeekend (d : Int) : Int := skipWeekendAux 7 d

/-- getPreviousBusinessDay: subtract one day from the reference date (or
from today when the reference is absent or unparseable), then skip back
over any weekend days. -/
def getPreviousBusinessDay (today : Int) (ref : Option Int) : Int :=
  skipWeekend (ref.getD today - 1)

/-- shiftDateString: add a signed number of calendar days to a date,
with no weekend skipping. -/
def shiftDateString (d : Int) (offset : Int) : Int := d + offset

/-! ## Rate-lookup client (src/unnamed/part_002, fetchRate, lines 245-331) -/

/-- Observable outcome of one request to the rate source, at the
interface boundary: 404 (no data for this date), a non-404 non-ok
response, an ok response whose body lacks a numeric mid rate, an ok
response carrying the rate's own effective date and numeric mid, or a
rejected fetch (network error) carrying an error message. -/
inductive FetchResult where
  | notFound
  | serverError
  | okNoMid
  | okMid (effectiveDate : Int) (mid : ℚ)
  | netError (msg : String)
deriving DecidableEq

/-- MAX_RATE_LOOKBACK_DAYS. -/
def MAX_RATE_LOOKBACK_DAYS : Nat := 10

/-- Message thrown when the response is non-404 and not ok. -/
def serverErrorMessage : String := "Nie udało się pobrać kursu NBP."

/-- Message thrown when the ok response has no numeric mid rate. -/
def noMidMessage : String := "Brak danych kursu NBP dla wybranej daty."

/-- Fallback shown when the caught error has no message of its own. -/
def fetchFallbackMessage : String := "Błąd podczas pobierania kursu NBP."

/-- Message surfaced when the attempt budget is exhausted. -/
def exhaustedMessage : String :=
  "Brak kursu NBP dla wybranej daty w ostatnich dniach roboczych."

/-- Whether a request outcome lands in the catch block of fetchRate
(anything other than a 404 or a well-formed success). -/
def isHardError : FetchResult → Bool
  | .serverError => true
  | .okNoMid => true
  | .netError _ => true
  | _ => false

/-- The error message produced by a hard request failure, including the
fallback applied when the error carries an empty message. -/
def hardMsg : FetchResult → String
  | .serverError => serverErrorMessage
  | .okNoMid => noMidMessage
  | .netError m => if m = "" then fetchFallbackMessage else m
  | _ => ""

/-- The setInvoiceData payload that one run of fetchRate applies to the
exchange-rate state: either the success payload or one of the two
failure payloads. -/
inductive LookupOutcome where
  | success (targetDate : Int) (effectiveDate : Int) (mid : ℚ)
  | hardFailure (targetDate : Int) (msg : String)
  | exhausted (targetDate : Int)
deriving DecidableEq

/-- The exchange-rate triple attached to an invoice.  Empty date strings
are Option.none, a null rate value is Option.none. -/
structure ExchangeRateState where
  targetDate : Option Int
  effectiveDate : Option Int
  value : Option ℚ
deriving DecidableEq

/-- The empty/null exchange-rate triple. -/
def emptyRate : ExchangeRateState := ⟨none, none, none⟩

/-- How each setInvoiceData payload of fetchRate rewrites the
exchange-rate triple (lines 283-290, 305-312, 321-328 of the source). -/
def applyOutcome : LookupOutcome → ExchangeRateState
  | .success t ed mid => ⟨some t, some ed, some mid⟩
  | .hardFailure t _ => ⟨some t, none, none⟩
  | .exhausted t => ⟨some t, none, none⟩

/-- The user-facing rateStatus error produced by applying an outcome. -/
def outcomeMessage : LookupOutcome → Option String
  | .success _ _ _ => none
  | .hardFailure _ m => some m
  | .exhausted _ => some exhaustedMessage

/-- Result of one invocation of fetchRate: the state update it applied
(none when it was cancelled before applying anything), the number of
requests it issued, and the index of the cancellation-flag read at which
the update was applied. -/
structure LookupRun where
  update : Option LookupOutcome
  requests : Nat
  applyEv : Option Nat
deriving DecidableEq

/-- The retry loop of fetchRate.  The fuel argument is
MAX_RATE_LOOKBACK_DAYS - attempts; attempts is incremented only on 404.
cancel gives the value of the isCancelled flag at each of its reads,
numbered sequentially by ev: the loop condition reads it once per
iteration, and each non-404 response is followed by one more read before
the corresponding setInvoiceData (the success guard on line 279, or the
catch guard on line 295 which also covers an AbortError).  When the fuel
is exhausted the final read guards the exhaustion payload (line 318);
that read coincides with the loop condition's read, with no suspension
point between them. -/
def runGo (source : Int → FetchResult) (cancel : Nat → Bool) (target : Int) :
    Nat → Int → Nat → Nat → LookupRun
  | 0, _, reqs, ev =>
      if cancel ev then ⟨none, reqs, none⟩
      else ⟨some (.exhausted target), reqs, some ev⟩
  | fuel + 1, d, reqs, ev =>
      if cancel ev then ⟨none, reqs, none⟩
      else
        match source d with
        | .notFound =>
            runGo source cancel target fuel (shiftDateString d (-1)) (reqs + 1) (ev + 1)
        | .okMid ed mid =>
            if cancel (ev + 1) then ⟨none, reqs + 1, none⟩
            else ⟨some (.success target ed mid), reqs + 1, some (ev + 1)⟩
        | .serverError =>
            if cancel (ev + 1) then ⟨none, reqs + 1, none⟩
            else ⟨some (.hardFailure target (hardMsg .serverError)), reqs + 1, some (ev + 1)⟩
        | .okNoMid =>
            if cancel (ev + 1) then ⟨none, reqs + 1, none⟩
            else ⟨some (.hardFailure target (hardMsg .okNoMid)), reqs + 1, some (ev + 1)⟩
        | .netError m =>
            if cancel (ev + 1) then ⟨none, reqs + 1, none⟩
            else ⟨some (.hardFailure target (hardMsg (.netError m))), reqs + 1, some (ev + 1)⟩

/-- One uncancelled run of fetchRate for a target date. -/
def fetchRate (source : Int → FetchResult) (target : Int) : LookupRun :=
  runGo source (fun _ => false) target MAX_RATE_LOOKBACK_DAYS target 0 0

/-- A run of fetchRate superseded at flag-read index sp: isCancelled is
set exactly once (by the effect cleanup of the superseding trigger), so
the flag reads as true from some read onwards. -/
def lookupCancelledFrom (source : Int → FetchResult) (target : Int) (sp : Nat) : LookupRun :=
  runGo source (fun ev => decide (sp ≤ ev)) target MAX_RATE_LOOKBACK_DAYS target 0 0

/-- Applying an optional setInvoiceData payload to the triple. -/
def applyUpd (s : ExchangeRateState) : Option LookupOutcome → ExchangeRateState
  | none => s
  | some o => applyOutcome o

/-! ## Reactive state controller (src/unnamed/part_002, lines 73-339) -/

/-- ASCII whitespace, modelling the characters trimmed from a currency
code (the codes offered by the form are ASCII). -/
def isSpaceChar (c : Char) : Bool :=
  c == ' ' || c == '\t' || c == '\n' || c == '\r'

/-- ASCII uppercasing of one character, modelling toUpperCase on the
ASCII currency codes offered by the form. -/
def upperChar (c : Char) : Char :=
  if 'a' ≤ c ∧ c ≤ 'z' then Char.ofNat (c.toNat - 32) else c

/-- trim of a character list: drop whitespace from both ends. -/
def trimChars (l : List Char) : List Char :=
  ((l.dropWhile isSpaceChar).reverse.dropWhile isSpaceChar).reverse

/-- The currency normalisation (value || '').trim().toUpperCase(). -/
def normalizeCurrency (s : String) : String :=
  String.mk ((trimChars s.data).map upperChar)

/-- isForeignCurrency: the normalised currency is neither empty nor PLN. -/
def isForeignCur (s : String) : Bool :=
  let n := normalizeCurrency s
  !(n == "") && !(n == "PLN")

/-- The slice of invoice state the rate controller manipulates: the
stored currency string, the issue date (none models an empty or
unparseable date input), the exchange-rate triple, and the target date
of the rate lookup currently in flight (none when no lookup is
pending). -/
structure Ctrl where
  currency : String
  issueDate : Option Int
  exchangeRate : ExchangeRateState
  pendingTarget : Option Int
deriving DecidableEq

/-- handleCurrencyChange (lines 85-112): store the normalised currency;
to PLN clear the whole triple, to anything else keep a nonempty target
(or default it to the previous business day of the issue date) and clear
the resolved date and value. -/
def handleCurrencyChange (today : Int) (v : String) (c : Ctrl) : Ctrl :=
  let nv := normalizeCurrency v
  if nv = "PLN" then
    { c with currency := nv, exchangeRate := emptyRate }
  else
    { c with
      currency := nv,
      exchangeRate :=
        { targetDate := some (c.exchangeRate.targetDate.getD
            (getPreviousBusinessDay today c.issueDate)),
          effectiveDate := none, value := none } }

/-- handleRateDateChange (lines 114-126): clamp a nonempty input to the
previous business day of the issue date, store it as the target date and
clear the resolved date and value. -/
def handleRateDateChange (today : Int) (v : Option Int) (c : Ctrl) : Ctrl :=
  let maxRateDate := getPreviousBusinessDay today c.issueDate
  let sanitized : Option Int :=
    match v with
    | none => none
    | some d => some (if maxRateDate < d then maxRateDate else d)
  { c with exchangeRate :=
      { targetDate := sanitized, effectiveDate := none, value := none } }

/-- handleUsePreviousBusinessDay (lines 128-141): set the target date to
the previous business day of the issue date, clear the resolved date and
value (the trigger bump is passed to runEffects separately). -/
def handleUsePreviousBusinessDay (today : Int) (c : Ctrl) : Ctrl :=
  { c with exchangeRate :=
      { targetDate := some (getPreviousBusinessDay today c.issueDate),
        effectiveDate := none, value := none } }

/-- handleRefreshRate (lines 143-160): when no target date is set,
default it to the previous business day and clear the resolved date and
value; otherwise leave the state alone (the trigger bump is passed to
runEffects separately). -/
def handleRefreshRate (today : Int) (c : Ctrl) : Ctrl :=
  if c.exchangeRate.targetDate = none then
    { c with exchangeRate :=
        { targetDate := some (getPreviousBusinessDay today c.issueDate),
          effectiveDate := none, value := none } }
  else c

/-- handleIssueDateChange (lines 162-190): store the new issue date; on a
foreign-currency invoice, when the target date is empty or equals the
default computed from the old issue date, and differs from the default
computed from the new issue date, replace it by the new default, clear
the resolved date and value, and request a refetch (the returned Bool is
the shouldRefetch flag). -/
def handleIssueDateChange (today : Int) (v : Option Int) (c : Ctrl) : Ctrl × Bool :=
  if isForeignCur c.currency then
    let newDefault := getPreviousBusinessDay today v
    let previousDefault := getPreviousBusinessDay today c.issueDate
    let targetWasDefault :=
      c.exchangeRate.targetDate = none ∨
      c.exchangeRate.targetDate = some previousDefault
    if targetWasDefault ∧ c.exchangeRate.targetDate ≠ some newDefault then
      ({ c with
          issueDate := v,
          exchangeRate :=
            { c.exchangeRate with
              targetDate := some newDefault, effectiveDate := none, value := none } },
        true)
    else ({ c with issueDate := v }, false)
  else ({ c with issueDate := v }, false)

/-- The reset/default useEffect (lines 200-230): on a non-foreign
currency clear the triple (the source guards the write behind a
non-emptiness test, with the same resulting state); on a foreign
currency with an empty target date, default the target date to the
previous business day of the issue date. -/
def runResetEffect (today : Int) (c : Ctrl) : Ctrl :=
  if isForeignCur c.currency then
    if c.exchangeRate.targetDate = none then
      { c with exchangeRate :=
          { c.exchangeRate with
            targetDate := some (getPreviousBusinessDay today c.issueDate) } }
    else c
  else { c with exchangeRate := emptyRate }

/-- Settling the two useEffects after a state change.  old is the
previous settled state; bump records a rateFetchTrigger increment.  The
fetch effect (lines 232-339) re-runs exactly when one of its
dependencies (isForeignCurrency, the target date, the trigger) changed:
its cleanup cancels any in-flight lookup, and it starts a new lookup for
the current target date when the currency is foreign and the target date
is nonempty. -/
def runEffects (today : Int) (old : Ctrl) (bump : Bool) (c : Ctrl) : Ctrl :=
  let c1 := runResetEffect today c
  if isForeignCur old.currency ≠ isForeignCur c1.currency ∨
      old.exchangeRate.targetDate ≠ c1.exchangeRate.targetDate ∨
      bump = true then
    if isForeignCur c1.currency = true ∧ c1.exchangeRate.targetDate ≠ none then
      { c1 with pendingTarget := c1.exchangeRate.targetDate }
    else { c1 with pendingTarget := none }
  else c1

/-- Delivery of the pending lookup's result: the uncancelled run of
fetchRate applies its payload to the triple and the lookup stops being
pending.  With no pending lookup nothing happens. -/
def resolveLookup (source : Int → FetchResult) (c : Ctrl) : Ctrl :=
  match c.pendingTarget with
  | none => c
  | some t =>
      match (fetchRate source t).update with
      | none => { c with pendingTarget := none }
      | some o => { c with exchangeRate := applyOutcome o, pendingTarget := none }

/-- The user/network events the controller reacts to. -/
inductive Act where
  | currency (v : String)
  | rateDate (v : Option Int)
  | prevBizDay
  | refresh
  | issue (v : Option Int)
  | resolve (source : Int → FetchResult)

/-- One settled transition: run the handler for the event, then settle
the effects.  today is the clock reading at the time of the event. -/
def step (today : Int) (c : Ctrl) : Act → Ctrl
  | .currency v => runEffects today c false (handleCurrencyChange today v c)
  | .rateDate v => runEffects today c false (handleRateDateChange today v c)
  | .prevBizDay => runEffects today c true (handleUsePreviousBusinessDay today c)
  | .refresh => runEffects today c true (handleRefreshRate today c)
  | .issue v =>
      let p := handleIssueDateChange today v c
      runEffects today c p.2 p.1
  | .resolve source => runEffects today c false (resolveLookup source c)

/-- The initial session state (App.tsx): currency PLN, today's issue
date, empty exchange-rate triple, no pending lookup. -/
def initCtrl (d : Option Int) : Ctrl := ⟨"PLN", d, emptyRate, none⟩

/-- Invoice states reachable from the initial state by settled
transitions, with an arbitrary clock reading at each event. -/
inductive Reachable (d : Option Int) : Ctrl → Prop where
  | init : Reachable d (initCtrl d)
  | next : ∀ {c : Ctrl} (today : Int) (a : Act),
      Reachable d c → Reachable d (step today c a)

/-! ## Money/VAT calculator (src/components/InvoicePDFPreview.tsx, lines 10-65) -/

/-- One billable line, restricted to the fields the calculator reads. -/
structure CalcItem where
  quantity : ℚ
  netPrice : ℚ
  vatRate : ℚ
deriving DecidableEq

/-- isPercentageRate: rate >= 0. -/
def isPercentageRate (rate : ℚ) : Bool := decide (0 ≤ rate)

/-- calculateVatAmount: a literal percentage of the net amount for
non-negative rate codes, zero for the sentinel codes. -/
def calculateVatAmount (rate : ℚ) (netAmount : ℚ) : ℚ :=
  if isPercentageRate rate then netAmount * rate / 100 else 0

/-- The per-item net amount computed inside calculateInvoice. -/
def itemNet (it : CalcItem) : ℚ := it.quantity * it.netPrice

/-- The per-item VAT amount computed inside calculateInvoice. -/
def itemVat (it : CalcItem) : ℚ := calculateVatAmount it.vatRate (itemNet it)

/-- The per-item gross amount computed inside calculateInvoice. -/
def itemGross (it : CalcItem) : ℚ := itemNet it + itemVat it

/-- One entry of the per-rate VAT breakdown. -/
structure VatGroup where
  rate : ℚ
  net : ℚ
  vat : ℚ
  gross : ℚ
deriving DecidableEq

/-- Accumulating one item into the vatBreakdown map, keyed by the exact
rate code: add to the existing entry or create a fresh one.  The JS
object is modelled as an association list; only the multiset of entries
matters to the totals. -/
def addGroup (bd : List VatGroup) (r n v g : ℚ) : List VatGroup :=
  match bd with
  | [] => [⟨r, n, v, g⟩]
  | x :: xs =>
      if x.rate = r then ⟨x.rate, x.net + n, x.vat + v, x.gross + g⟩ :: xs
      else x :: addGroup xs r n v g

/-- The forEach loop of calculateInvoice building vatBreakdown. -/
def buildBreakdown (items : List CalcItem) : List VatGroup :=
  items.foldl (fun bd it => addGroup bd it.vatRate (itemNet it) (itemVat it) (itemGross it)) []

/-- The derived totals record. -/
structure InvoiceCalculations where
  netTotal : ℚ
  vatTotal : ℚ
  grossTotal : ℚ
  vatBreakdown : List VatGroup
deriving DecidableEq

/-- calculateInvoice: build the per-rate breakdown, sum the group nets
and vats into the totals, and set grossTotal = netTotal + vatTotal. -/
def calculateInvoice (items : List CalcItem) : InvoiceCalculations :=
  let bd := buildBreakdown items
  let netTotal := (bd.map VatGroup.net).sum
  let vatTotal := (bd.map VatGroup.vat).sum
  ⟨netTotal, vatTotal, netTotal + vatTotal, bd⟩

/-! ## Note presets (src/unnamed/part_002, appendNote, lines 378-390) -/

/-- Whether the needle is a prefix of the haystack, on character lists. -/
def startsWithCh : List Char → List Char → Bool
  | [], _ => true
  | _ :: _, [] => false
  | a :: as, b :: bs => a == b && startsWithCh as bs

/-- String.prototype.includes: the needle occurs contiguously somewhere
in the haystack. -/
def includesCh (hay needle : List Char) : Bool :=
  match hay with
  | [] => startsWithCh needle []
  | _ :: t => startsWithCh needle hay || includesCh t needle

/-- appendNote: leave the notes alone when they already contain the
preset; otherwise append it, preceded by a newline when the trimmed
current notes are nonempty. -/
def appendNote (current note : String) : String :=
  if includesCh current.data note.data then current
  else if (trimChars current.data).length > 0 then current ++ "\n" ++ note
  else current ++ note

/-- Concrete foreign-currency state used by controller witnesses: a
resolved EUR rate with a pending lookup. -/
def wCtrlForeign : Ctrl := ⟨"EUR", some 3, ⟨some 2, some 2, some 4⟩, some 2⟩

/-- Concrete foreign-currency state used by the issue-date witness: the
user overrode the rate target date away from the default. -/
def wCtrlOverride : Ctrl := ⟨"EUR", some 10, ⟨some 3, none, none⟩, none⟩

/-- Stub rate source used by lookup witnesses: three consecutive
non-trading days before a published rate whose own effective date is the
fourth queried day. -/
def wSrcNotFound3 : Int → FetchResult := fun d =>
  if d = -3 then .okMid (-3) 4 else .notFound

/-- Stub rate source with no published rate on any day. -/
def wSrcAllNotFound : Int → FetchResult := fun _ => .notFound

/-- Stub rate source whose every response is a server error. -/
def wSrcServerError : Int → FetchResult := fun _ => .serverError

/-- Stub rate source that always succeeds immediately. -/
def wSrcOk : Int → FetchResult := fun _ => .okMid 1 3

/-! ## Lemmas about the rate-lookup loop -/

theorem runGo_success_of_notFound (source : Int → FetchResult) (t ed : Int) (mid : ℚ) :
    ∀ (k fuel : Nat), k < fuel → ∀ (d : Int) (reqs ev : Nat),
    (∀ i : Nat, i < k → source (d - i) = .notFound) →
    source (d - k) = .okMid ed mid →
    runGo source (fun _ => false) t fuel d reqs ev =
      ⟨some (.success t ed mid), reqs + (k + 1), some (ev + (k + 1))⟩ := by
  intro k
  induction k with
  | zero =>
      intro fuel hk d reqs ev _ hok
      obtain ⟨f, rfl⟩ : ∃ f, fuel = f + 1 := ⟨fuel - 1, by omega⟩
      have hd : source d = .okMid ed mid := by simpa using hok
      simp [runGo, hd]
  | succ k ih =>
      intro fuel hk d reqs ev h404 hok
      obtain ⟨f, rfl⟩ : ∃ f, fuel = f + 1 := ⟨fuel - 1, by omega⟩
      have hd : source d = .notFound := by simpa using h404 0 (Nat.succ_pos k)
      have h404' : ∀ i : Nat, i < k → source (d - 1 - i) = .notFound := by
        intro i hi
        have := h404 (i + 1) (by omega)
        have harg : d - ((i : Int) + 1) = d - 1 - i := by ring
        simpa [harg] using this
      have hok' : source (d - 1 - k) = .okMid ed mid := by
        have harg : d - ((k : Int) + 1) = d - 1 - k := by ring
        simpa [harg] using hok
      have := ih f (by omega) (d - 1) (reqs + 1) (ev + 1) h404' hok'
      have hshift : shiftDateString d (-1) = d - 1 := by
        simp [shiftDateString]; ring
      simp only [runGo, hd, if_neg (by simp : ¬ (fun _ : Nat => false) ev = true), hshift]
      rw [this]
      simp only [LookupRun.mk.injEq, Option.some.injEq]
      exact ⟨trivial, by omega, by omega⟩

theorem runGo_exhausted_of_allNotFound (source : Int → FetchResult) (t : Int) :
    ∀ (fuel : Nat) (d : Int) (reqs ev : Nat),
    (∀ i : Nat, i < fuel → source (d - i) = .notFound) →
    runGo source (fun _ => false) t fuel d reqs ev =
      ⟨some (.exhausted t), reqs + fuel, some (ev + fuel)⟩ := by
  intro fuel
  induction fuel with
  | zero => intro d reqs ev _; simp [runGo]
  | succ f ih =>
      intro d reqs ev h404
      have hd : source d = .notFound := by simpa using h404 0 (Nat.succ_pos f)
      have h404' : ∀ i : Nat, i < f → source (d - 1 - i) = .notFound := by
        intro i hi
        have := h404 (i + 1) (by omega)
        have harg : d - ((i : Int) + 1) = d - 1 - i := by ring
        simpa [harg] using this
      have := ih (d - 1) (reqs + 1) (ev + 1) h404'
      have hshift : shiftDateString d (-1) = d - 1 := by
        simp [shiftDateString]; ring
      simp only [runGo, hd, if_neg (by simp : ¬ (fun _ : Nat => false) ev = true), hshift]
      rw [this]
      simp only [LookupRun.mk.injEq, Option.some.injEq]
      exact ⟨trivial, by omega, by omega⟩

theorem runGo_hard_of_notFound (source : Int → FetchResult) (t : Int) :
    ∀ (k fuel : Nat), k < fuel → ∀ (d : Int) (reqs ev : Nat),
    (∀ i : Nat, i < k → source (d - i) = .notFound) →
    isHardError (source (d - k)) = true →
    runGo source (fun _ => false) t fuel d reqs ev =
      ⟨some (.hardFailure t (hardMsg (source (d - k)))), reqs + (k + 1), some (ev + (k + 1))⟩ := by
  intro k
  induction k with
  | zero =>
      intro fuel hk d reqs ev _ hhard
      obtain ⟨f, rfl⟩ : ∃ f, fuel = f + 1 := ⟨fuel - 1, by omega⟩
      have hd0 : d - ((0 : Nat) : Int) = d := by simp
      rw [hd0] at hhard ⊢
      cases hsd : source d with
      | notFound => rw [hsd] at hhard; simp [isHardError] at hhard
      | okMid ed mid => rw [hsd] at hhard; simp [isHardError] at hhard
      | serverError => simp [runGo, hsd]
      | okNoMid => simp [runGo, hsd]
      | netError m => simp [runGo, hsd]
  | succ k ih =>
      intro fuel hk d reqs ev h404 hhard
      obtain ⟨f, rfl⟩ : ∃ f, fuel = f + 1 := ⟨fuel - 1, by omega⟩
      have hd : source d = .notFound := by simpa using h404 0 (Nat.succ_pos k)
      have h404' : ∀ i : Nat, i < k → source (d - 1 - i) = .notFound := by
        intro i hi
        have := h404 (i + 1) (by omega)
        have harg : d - ((i : Int) + 1) = d - 1 - i := by ring
        simpa [harg] using this
      have harg : d - ((k : Int) + 1) = d - 1 - k := by ring
      rw [show ((k + 1 : Nat) : Int) = (k : Int) + 1 by push_cast; ring, harg] at hhard ⊢
      have := ih f (by omega) (d - 1) (reqs + 1) (ev + 1) h404' hhard
      have hshift : shiftDateString d (-1) = d - 1 := by
        simp [shiftDateString]; ring
      simp only [runGo, hd, if_neg (by simp : ¬ (fun _ : Nat => false) ev = true), hshift]
      rw [this]
      simp only [LookupRun.mk.injEq, Option.some.injEq]
      exact ⟨trivial, by omega, by omega⟩

theorem runGo_cancel_requests_le (source : Int → FetchResult) (t : Int) (sp : Nat) :
    ∀ (fuel : Nat) (d : Int) (reqs ev : Nat),
    (runGo source (fun e => decide (sp ≤ e)) t fuel d reqs ev).requests ≤ reqs + (sp - ev) := by
  intro fuel
  induction fuel with
  | zero =>
      intro d reqs ev
      by_cases h : sp ≤ ev <;> simp [runGo, h]
  | succ f ih =>
      intro d reqs ev
      by_cases h : sp ≤ ev
      · simp [runGo, h]
      · have hlt : ev < sp := by omega
        simp only [runGo, decide_eq_true_eq, if_neg h]
        cases hsd : source d with
        | notFound =>
            have := ih (shiftDateString d (-1)) (reqs + 1) (ev + 1)
            calc (runGo source (fun e => decide (sp ≤ e)) t f
                    (shiftDateString d (-1)) (reqs + 1) (ev + 1)).requests
                ≤ (reqs + 1) + (sp - (ev + 1)) := this
              _ ≤ reqs + (sp - ev) := by omega
        | okMid ed mid => by_cases h2 : sp ≤ ev + 1 <;> simp [h2] <;> omega
        | serverError => by_cases h2 : sp ≤ ev + 1 <;> simp [h2] <;> omega
        | okNoMid => by_cases h2 : sp ≤ ev + 1 <;> simp [h2] <;> omega
        | netError m => by_cases h2 : sp ≤ ev + 1 <;> simp [h2] <;> omega

theorem runGo_cancel_update_none (source : Int → FetchResult) (t : Int) (sp : Nat) :
    ∀ (fuel : Nat) (d : Int) (reqs ev e : Nat),
    (runGo source (fun _ => false) t fuel d reqs ev).applyEv = some e →
    sp ≤ e →
    (runGo source (fun x => decide (sp ≤ x)) t fuel d reqs ev).update = none := by
  intro fuel
  induction fuel with
  | zero =>
      intro d reqs ev e huncan hsp
      have hev : e = ev := by simpa [runGo] using huncan.symm
      subst hev
      simp [runGo, hsp]
  | succ f ih =>
      intro d reqs ev e huncan hsp
      by_cases h : sp ≤ ev
      · simp [runGo, h]
      · have hlt : ev < sp := by omega
        simp only [runGo, if_neg (by simp : ¬ (fun _ : Nat => false) ev = true)] at huncan
        simp only [runGo, decide_eq_true_eq, if_neg h]
        cases hsd : source d with
        | notFound =>
            rw [hsd] at huncan
            exact ih (shiftDateString d (-1)) (reqs + 1) (ev + 1) e huncan hsp
        | okMid ed mid =>
            rw [hsd] at huncan
            have he : e = ev + 1 := by simpa using huncan.symm
            simp [show sp ≤ ev + 1 by omega]
        | serverError =>
            rw [hsd] at huncan
            have he : e = ev + 1 := by simpa using huncan.symm
            simp [show sp ≤ ev + 1 by omega]
        | okNoMid =>
            rw [hsd] at huncan
            have he : e = ev + 1 := by simpa using huncan.symm
            simp [show sp ≤ ev + 1 by omega]
        | netError m =>
            rw [hsd] at huncan
            have he : e = ev + 1 := by simpa using huncan.symm
            simp [show sp ≤ ev + 1 by omega]

theorem runGo_false_applyEv_isSome (source : Int → FetchResult) (t : Int) :
    ∀ (fuel : Nat) (d : Int) (reqs ev : Nat),
    ∃ e : Nat, (runGo source (fun _ => false) t fuel d reqs ev).applyEv = some e := by
  intro fuel
  induction fuel with
  | zero => intro d reqs ev; exact ⟨ev, by simp [runGo]⟩
  | succ f ih =>
      intro d reqs ev
      simp only [runGo, if_neg (by simp : ¬ (fun _ : Nat => false) ev = true)]
      cases hsd : source d with
      | notFound => exact ih (shiftDateString d (-1)) (reqs + 1) (ev + 1)
      | okMid ed mid => exact ⟨ev + 1, by simp⟩
      | serverError => exact ⟨ev + 1, by simp⟩
      | okNoMid => exact ⟨ev + 1, by simp⟩
      | netError m => exact ⟨ev + 1, by simp⟩

/-! ## Claims about the rate-lookup client -/

/-- Claim C1: when the source reports "no data" (404) for the first k
queried dates (k < 10) and then returns a rate, the lookup issues
exactly k + 1 requests walking back one calendar day at a time, and the
stored result carries the response's own effective date and mid rate. -/
theorem claim_C1 (source : Int → FetchResult) (d ed : Int) (mid : ℚ) (k : Nat)
    (hk : k < MAX_RATE_LOOKBACK_DAYS)
    (h404 : ∀ i : Nat, i < k → source (d - i) = .notFound)
    (hok : source (d - k) = .okMid ed mid) :
    (fetchRate source d).requests = k + 1 ∧
    (fetchRate source d).update = some (.success d ed mid) ∧
    applyOutcome (.success d ed mid) = ⟨some d, some ed, some mid⟩ := by
  have h := runGo_success_of_notFound source d ed mid k MAX_RATE_LOOKBACK_DAYS hk
    d 0 0 h404 hok
  unfold fetchRate
  rw [h]
  exact ⟨by simp, rfl, rfl⟩

/-- Witness for C1 at the spec's own example: three simulated "not
found" days, then a success on the fourth queried date. -/
theorem claim_C1_witness :
    (3 < MAX_RATE_LOOKBACK_DAYS ∧
      (∀ i : Nat, i < 3 → wSrcNotFound3 ((0 : Int) - i) = .notFound) ∧
      wSrcNotFound3 ((0 : Int) - (3 : Nat)) = .okMid (-3) 4) ∧
    ((fetchRate wSrcNotFound3 0).requests = 3 + 1 ∧
      (fetchRate wSrcNotFound3 0).update = some (.success 0 (-3) 4) ∧
      applyOutcome (.success 0 (-3) 4) = ⟨some 0, some (-3), some 4⟩) :=
  ⟨⟨by decide, by decide, by decide⟩,
    claim_C1 wSrcNotFound3 0 (-3) 4 3 (by decide) (by decide) (by decide)⟩

/-- Claim C2: when the source reports "no data" on every queried date,
the lookup issues exactly 10 requests (the target date and the 9
preceding calendar days) and applies the exhaustion payload: a failure
distinct from a hard failure, carrying a user-facing message, leaving
the effective date empty and the value null. -/
theorem claim_C2 (source : Int → FetchResult) (d : Int)
    (h404 : ∀ i : Nat, i < MAX_RATE_LOOKBACK_DAYS → source (d - i) = .notFound) :
    (fetchRate source d).requests = 10 ∧
    (fetchRate source d).update = some (.exhausted d) ∧
    applyOutcome (.exhausted d) = ⟨some d, none, none⟩ ∧
    outcomeMessage (.exhausted d) = some exhaustedMessage ∧
    ∀ (t : Int) (m : String), LookupOutcome.exhausted d ≠ .hardFailure t m := by
  have h := runGo_exhausted_of_allNotFound source d MAX_RATE_LOOKBACK_DAYS d 0 0 h404
  unfold fetchRate
  rw [h]
  refine ⟨rfl, rfl, rfl, rfl, fun t m hcontra => ?_⟩
  exact LookupOutcome.noConfusion hcontra

/-- Witness for C2: a source with no published rate on any day. -/
theorem claim_C2_witness :
    (∀ i : Nat, i < MAX_RATE_LOOKBACK_DAYS → wSrcAllNotFound ((0 : Int) - i) = .notFound) ∧
    ((fetchRate wSrcAllNotFound 0).requests = 10 ∧
      (fetchRate wSrcAllNotFound 0).update = some (.exhausted 0) ∧
      applyOutcome (.exhausted 0) = ⟨some 0, none, none⟩ ∧
      outcomeMessage (.exhausted 0) = some exhaustedMessage ∧
      ∀ (t : Int) (m : String), LookupOutcome.exhausted 0 ≠ .hardFailure t m) :=
  ⟨by decide, claim_C2 wSrcAllNotFound 0 (by decide)⟩

/-- Claim C3: when a queried request fails with anything other than a
404 — a network error, a non-404 non-ok response, or a response without
a numeric mid rate — the lookup stops at that request (k + 1 requests in
total after k 404s), applies the hard-failure payload clearing the
effective date and value, and surfaces a nonempty user-facing error
message. -/
theorem claim_C3 (source : Int → FetchResult) (d : Int) (k : Nat)
    (hk : k < MAX_RATE_LOOKBACK_DAYS)
    (h404 : ∀ i : Nat, i < k → source (d - i) = .notFound)
    (hhard : isHardError (source (d - k)) = true) :
    (fetchRate source d).requests = k + 1 ∧
    (fetchRate source d).update = some (.hardFailure d (hardMsg (source (d - k)))) ∧
    applyOutcome (.hardFailure d (hardMsg (source (d - k)))) = ⟨some d, none, none⟩ ∧
    outcomeMessage (.hardFailure d (hardMsg (source (d - k)))) =
      some (hardMsg (source (d - k))) ∧
    hardMsg (source (d - k)) ≠ "" := by
  have h := runGo_hard_of_notFound source d k MAX_RATE_LOOKBACK_DAYS hk d 0 0 h404 hhard
  unfold fetchRate
  rw [h]
  refine ⟨by simp, rfl, rfl, rfl, ?_⟩
  cases hsd : source (d - k) with
  | notFound => rw [hsd] at hhard; simp [isHardError] at hhard
  | okMid ed mid => rw [hsd] at hhard; simp [isHardError] at hhard
  | serverError => simp [hardMsg, serverErrorMessage]
  | okNoMid => simp [hardMsg, noMidMessage]
  | netError m =>
      by_cases hm : m = ""
      · simp [hardMsg, hm, fetchFallbackMessage]
      · simp [hardMsg, hm]

/-- Witness for C3: a source whose first response is a server error. -/
theorem claim_C3_witness :
    (0 < MAX_RATE_LOOKBACK_DAYS ∧
      isHardError (wSrcServerError ((0 : Int) - (0 : Nat))) = true) ∧
    ((fetchRate wSrcServerError 0).requests = 0 + 1 ∧
      (fetchRate wSrcServerError 0).update =
        some (.hardFailure 0 (hardMsg (wSrcServerError ((0 : Int) - (0 : Nat))))) ∧
      applyOutcome (.hardFailure 0 (hardMsg (wSrcServerError ((0 : Int) - (0 : Nat))))) =
        ⟨some 0, none, none⟩ ∧
      outcomeMessage (.hardFailure 0 (hardMsg (wSrcServerError ((0 : Int) - (0 : Nat))))) =
        some (hardMsg (wSrcServerError ((0 : Int) - (0 : Nat)))) ∧
      hardMsg (wSrcServerError ((0 : Int) - (0 : Nat))) ≠ "") :=
  ⟨⟨by decide, by decide⟩,
    claim_C3 wSrcServerError 0 0 (by decide) (by decide) (by decide)⟩

/-- Claim C4: when a lookup is superseded (its isCancelled flag reads
true from read index sp onwards) before it has resolved — every flag
read at which the uncancelled run would apply its payload lies at or
after sp — the superseded lookup applies nothing and issues at most sp
requests, so composing with an uncompromised second lookup leaves
exactly the second lookup's payload in the exchange-rate state, in
either arrival order. -/
theorem claim_C4 (source1 source2 : Int → FetchResult) (t1 t2 : Int) (sp : Nat)
    (s0 : ExchangeRateState)
    (hunres : ∀ e : Nat, (fetchRate source1 t1).applyEv = some e → sp ≤ e) :
    (lookupCancelledFrom source1 t1 sp).update = none ∧
    (lookupCancelledFrom source1 t1 sp).requests ≤ sp ∧
    applyUpd (applyUpd s0 (lookupCancelledFrom source1 t1 sp).update)
        ((fetchRate source2 t2).update) =
      applyUpd s0 ((fetchRate source2 t2).update) ∧
    applyUpd (applyUpd s0 ((fetchRate source2 t2).update))
        ((lookupCancelledFrom source1 t1 sp).update) =
      applyUpd s0 ((fetchRate source2 t2).update) := by
  obtain ⟨e, he⟩ := runGo_false_applyEv_isSome source1 t1 MAX_RATE_LOOKBACK_DAYS t1 0 0
  have hsp : sp ≤ e := hunres e he
  have hnone : (lookupCancelledFrom source1 t1 sp).update = none :=
    runGo_cancel_update_none source1 t1 sp MAX_RATE_LOOKBACK_DAYS t1 0 0 e he hsp
  have hreq : (lookupCancelledFrom source1 t1 sp).requests ≤ sp := by
    have := runGo_cancel_requests_le source1 t1 sp MAX_RATE_LOOKBACK_DAYS t1 0 0
    simpa [lookupCancelledFrom] using this
  refine ⟨hnone, hreq, ?_, ?_⟩
  · rw [hnone]; rfl
  · rw [hnone]; rfl

/-- Witness for C4: a first lookup walking back over non-trading days,
superseded before any flag read; the second lookup's immediate success
is the only payload ever applied. -/
theorem claim_C4_witness :
    (lookupCancelledFrom wSrcAllNotFound 0 0).update = none ∧
    (lookupCancelledFrom wSrcAllNotFound 0 0).requests ≤ 0 ∧
    applyUpd (applyUpd emptyRate (lookupCancelledFrom wSrcAllNotFound 0 0).update)
        ((fetchRate wSrcOk 5).update) =
      applyUpd emptyRate ((fetchRate wSrcOk 5).update) ∧
    applyUpd (applyUpd emptyRate ((fetchRate wSrcOk 5).update))
        ((lookupCancelledFrom wSrcAllNotFound 0 0).update) =
      applyUpd emptyRate ((fetchRate wSrcOk 5).update) :=
  claim_C4 wSrcAllNotFound wSrcOk 0 5 0 emptyRate (fun e _ => Nat.zero_le e)

/-! ## Lemmas about the business-day resolver -/

theorem isWeekendDay_eq_false_of (x : Int) (h0 : dayOfWeek x ≠ 0) (h6 : dayOfWeek x ≠ 6) :
    isWeekendDay x = false := by
  simp only [isWeekendDay, Bool.or_eq_false_iff]
  exact ⟨by simpa using h0, by simpa using h6⟩

theorem isWeekendDay_eq_true_of (x : Int) (h : dayOfWeek x = 0 ∨ dayOfWeek x = 6) :
    isWeekendDay x = true := by
  rcases h with h | h <;> simp [isWeekendDay, h]

/-! ## Claim about the business-day resolver -/

/-- Claim C9: the previous business day of a Saturday or Sunday is the
preceding Friday, of a Monday the preceding Friday, of a midweek day the
immediately preceding calendar day; in every case it is a weekday
strictly before the input date. -/
theorem claim_C9 (today d : Int) :
    (dayOfWeek d = 6 →
      getPreviousBusinessDay today (some d) = d - 1 ∧ dayOfWeek (d - 1) = 5) ∧
    (dayOfWeek d = 0 →
      getPreviousBusinessDay today (some d) = d - 2 ∧ dayOfWeek (d - 2) = 5) ∧
    (dayOfWeek d = 1 →
      getPreviousBusinessDay today (some d) = d - 3 ∧ dayOfWeek (d - 3) = 5) ∧
    (2 ≤ dayOfWeek d → dayOfWeek d ≤ 5 →
      getPreviousBusinessDay today (some d) = d - 1) ∧
    getPreviousBusinessDay today (some d) < d ∧
    isWeekendDay (getPreviousBusinessDay today (some d)) = false := by
  have hgp : getPreviousBusinessDay today (some d) = skipWeekendAux 7 (d - 1) := rfl
  have hsub2 : d - 1 - 1 = d - 2 := by ring
  have hsub3 : d - 2 - 1 = d - 3 := by ring
  have hcase : dayOfWeek d = 0 ∨ dayOfWeek d = 1 ∨ dayOfWeek d = 6 ∨
      (2 ≤ dayOfWeek d ∧ dayOfWeek d ≤ 5) := by
    unfold dayOfWeek; omega
  rcases hcase with h | h | h | h
  · -- Sunday
    have e1 : dayOfWeek (d - 1) = 6 := by unfold dayOfWeek at h ⊢; omega
    have e2 : dayOfWeek (d - 2) = 5 := by unfold dayOfWeek at h ⊢; omega
    have w1 : isWeekendDay (d - 1) = true := isWeekendDay_eq_true_of _ (Or.inr e1)
    have w2 : isWeekendDay (d - 2) = false :=
      isWeekendDay_eq_false_of _ (by omega) (by omega)
    have hres : getPreviousBusinessDay today (some d) = d - 2 := by
      rw [hgp]
      simp [skipWeekendAux, w1, hsub2, w2]
    refine ⟨fun h6 => by omega, fun _ => ⟨hres, e2⟩, fun h1 => by omega,
      fun h2 _ => by omega, by rw [hres]; omega, by rw [hres]; exact w2⟩
  · -- Monday
    have e1 : dayOfWeek (d - 1) = 0 := by unfold dayOfWeek at h ⊢; omega
    have e2 : dayOfWeek (d - 2) = 6 := by unfold dayOfWeek at h ⊢; omega
    have e3 : dayOfWeek (d - 3) = 5 := by unfold dayOfWeek at h ⊢; omega
    have w1 : isWeekendDay (d - 1) = true := isWeekendDay_eq_true_of _ (Or.inl e1)
    have w2 : isWeekendDay (d - 2) = true := isWeekendDay_eq_true_of _ (Or.inr e2)
    have w3 : isWeekendDay (d - 3) = false :=
      isWeekendDay_eq_false_of _ (by omega) (by omega)
    have hres : getPreviousBusinessDay today (some d) = d - 3 := by
      rw [hgp]
      simp [skipWeekendAux, w1, hsub2, w2, hsub3, w3]
    refine ⟨fun h6 => by omega, fun h0 => by omega, fun _ => ⟨hres, e3⟩,
      fun h2 _ => by omega, by rw [hres]; omega, by rw [hres]; exact w3⟩
  · -- Saturday
    have e1 : dayOfWeek (d - 1) = 5 := by unfold dayOfWeek at h ⊢; omega
    have w1 : isWeekendDay (d - 1) = false :=
      isWeekendDay_eq_false_of _ (by omega) (by omega)
    have hres : getPreviousBusinessDay today (some d) = d - 1 := by
      rw [hgp]
      simp [skipWeekendAux, w1]
    refine ⟨fun _ => ⟨hres, e1⟩, fun h0 => by omega, fun h1 => by omega,
      fun h2 _ => by omega, by rw [hres]; omega, by rw [hres]; exact w1⟩
  · -- Tuesday through Friday
    have e1 : 1 ≤ dayOfWeek (d - 1) ∧ dayOfWeek (d - 1) ≤ 4 := by
      unfold dayOfWeek at h ⊢; omega
    have w1 : isWeekendDay (d - 1) = false :=
      isWeekendDay_eq_false_of _ (by omega) (by omega)
    have hres : getPreviousBusinessDay today (some d) = d - 1 := by
      rw [hgp]
      simp [skipWeekendAux, w1]
    refine ⟨fun h6 => by omega, fun h0 => by omega, fun h1 => by omega,
      fun _ _ => hres, by rw [hres]; omega, by rw [hres]; exact w1⟩

/-- Witness for C9 at a concrete Saturday, day 2 (1970-01-03). -/
theorem claim_C9_witness :
    (dayOfWeek 2 = 6 →
      getPreviousBusinessDay 0 (some 2) = 2 - 1 ∧ dayOfWeek (2 - 1) = 5) ∧
    (dayOfWeek 2 = 0 →
      getPreviousBusinessDay 0 (some 2) = 2 - 2 ∧ dayOfWeek (2 - 2) = 5) ∧
    (dayOfWeek 2 = 1 →
      getPreviousBusinessDay 0 (some 2) = 2 - 3 ∧ dayOfWeek (2 - 3) = 5) ∧
    (2 ≤ dayOfWeek 2 → dayOfWeek 2 ≤ 5 →
      getPreviousBusinessDay 0 (some 2) = 2 - 1) ∧
    getPreviousBusinessDay 0 (some 2) < 2 ∧
    isWeekendDay (getPreviousBusinessDay 0 (some 2)) = false :=
  claim_C9 0 2

/-! ## Lemmas about the calculator -/

theorem addGroup_map_net_sum (r n v g : ℚ) :
    ∀ bd : List VatGroup,
    ((addGroup bd r n v g).map VatGroup.net).sum = (bd.map VatGroup.net).sum + n := by
  intro bd
  induction bd with
  | nil => simp [addGroup]
  | cons x xs ih =>
      by_cases hx : x.rate = r
      · simp [addGroup, hx]; ring
      · simp [addGroup, hx, ih]; ring

theorem addGroup_map_vat_sum (r n v g : ℚ) :
    ∀ bd : List VatGroup,
    ((addGroup bd r n v g).map VatGroup.vat).sum = (bd.map VatGroup.vat).sum + v := by
  intro bd
  induction bd with
  | nil => simp [addGroup]
  | cons x xs ih =>
      by_cases hx : x.rate = r
      · simp [addGroup, hx]; ring
      · simp [addGroup, hx, ih]; ring

theorem breakdown_foldl_net_sum :
    ∀ (items : List CalcItem) (init : List VatGroup),
    ((items.foldl
        (fun bd it => addGroup bd it.vatRate (itemNet it) (itemVat it) (itemGross it))
        init).map VatGroup.net).sum =
      (init.map VatGroup.net).sum + (items.map itemNet).sum := by
  intro items
  induction items with
  | nil => intro init; simp
  | cons it items ih =>
      intro init
      simp only [List.foldl_cons, List.map_cons, List.sum_cons]
      rw [ih, addGroup_map_net_sum]
      ring

theorem breakdown_foldl_vat_sum :
    ∀ (items : List CalcItem) (init : List VatGroup),
    ((items.foldl
        (fun bd it => addGroup bd it.vatRate (itemNet it) (itemVat it) (itemGross it))
        init).map VatGroup.vat).sum =
      (init.map VatGroup.vat).sum + (items.map itemVat).sum := by
  intro items
  induction items with
  | nil => intro init; simp
  | cons it items ih =>
      intro init
      simp only [List.foldl_cons, List.map_cons, List.sum_cons]
      rw [ih, addGroup_map_vat_sum]
      ring

theorem map_itemGross_sum (items : List CalcItem) :
    (items.map itemGross).sum = (items.map itemNet).sum + (items.map itemVat).sum := by
  induction items with
  | nil => simp
  | cons it items ih => simp [itemGross, ih]; ring

/-! ## Claim about the calculator -/

/-- Claim C8: per item, net = quantity times unit price, vat is the
literal percentage of net for non-negative rate codes and zero for the
sentinel codes, gross = net + vat; the calculator's totals are the sums
of those per-item values over all items, and the empty item list yields
all-zero totals. -/
theorem claim_C8 (items : List CalcItem) :
    (∀ it ∈ items,
      itemNet it = it.quantity * it.netPrice ∧
      (0 ≤ it.vatRate → itemVat it = itemNet it * it.vatRate / 100) ∧
      (it.vatRate < 0 → itemVat it = 0) ∧
      itemGross it = itemNet it + itemVat it) ∧
    (calculateInvoice items).netTotal = (items.map itemNet).sum ∧
    (calculateInvoice items).vatTotal = (items.map itemVat).sum ∧
    (calculateInvoice items).grossTotal = (items.map itemGross).sum ∧
    (calculateInvoice []).netTotal = 0 ∧
    (calculateInvoice []).vatTotal = 0 ∧
    (calculateInvoice []).grossTotal = 0 := by
  have hnet : (calculateInvoice items).netTotal = (items.map itemNet).sum := by
    show ((buildBreakdown items).map VatGroup.net).sum = (items.map itemNet).sum
    unfold buildBreakdown
    rw [breakdown_foldl_net_sum]
    simp
  have hvat : (calculateInvoice items).vatTotal = (items.map itemVat).sum := by
    show ((buildBreakdown items).map VatGroup.vat).sum = (items.map itemVat).sum
    unfold buildBreakdown
    rw [breakdown_foldl_vat_sum]
    simp
  refine ⟨?_, hnet, hvat, ?_, by simp [calculateInvoice, buildBreakdown],
    by simp [calculateInvoice, buildBreakdown], by simp [calculateInvoice, buildBreakdown]⟩
  · intro it _
    refine ⟨rfl, ?_, ?_, rfl⟩
    · intro hr
      simp [itemVat, calculateVatAmount, isPercentageRate, hr]
    · intro hr
      simp [itemVat, calculateVatAmount, isPercentageRate, not_le.mpr hr]
  · show (calculateInvoice items).netTotal + (calculateInvoice items).vatTotal = _
    rw [hnet, hvat, map_itemGross_sum]

/-- Witness for C8 at the spec's scenario: one item of quantity 2, unit
price 100, rate 23. -/
theorem claim_C8_witness :
    ((⟨2, 100, 23⟩ : CalcItem) ∈ [(⟨2, 100, 23⟩ : CalcItem)] ∧
      itemNet ⟨2, 100, 23⟩ = (2 : ℚ) * 100 ∧
      (0 ≤ (23 : ℚ) → itemVat ⟨2, 100, 23⟩ = itemNet ⟨2, 100, 23⟩ * 23 / 100) ∧
      itemGross ⟨2, 100, 23⟩ = itemNet ⟨2, 100, 23⟩ + itemVat ⟨2, 100, 23⟩) ∧
    (calculateInvoice [⟨2, 100, 23⟩]).netTotal = ([(⟨2, 100, 23⟩ : CalcItem)].map itemNet).sum ∧
    (calculateInvoice [⟨2, 100, 23⟩]).vatTotal = ([(⟨2, 100, 23⟩ : CalcItem)].map itemVat).sum ∧
    (calculateInvoice [⟨2, 100, 23⟩]).grossTotal = ([(⟨2, 100, 23⟩ : CalcItem)].map itemGross).sum ∧
    (calculateInvoice [⟨2, 100, 23⟩]).netTotal = 200 ∧
    (calculateInvoice [⟨2, 100, 23⟩]).vatTotal = 46 ∧
    (calculateInvoice [⟨2, 100, 23⟩]).grossTotal = 246 := by
  have h := claim_C8 [(⟨2, 100, 23⟩ : CalcItem)]
  have hmem : (⟨2, 100, 23⟩ : CalcItem) ∈ [(⟨2, 100, 23⟩ : CalcItem)] := List.mem_singleton_self _
  obtain ⟨hitem, hn, hv, hg, _, _, _⟩ := h
  obtain ⟨hi1, hi2, _, hi4⟩ := hitem _ hmem
  refine ⟨⟨hmem, hi1, hi2, hi4⟩, hn, hv, hg, ?_, ?_, ?_⟩ <;>
    norm_num [calculateInvoice, buildBreakdown, addGroup, itemNet, itemVat, itemGross,
      calculateVatAmount, isPercentageRate]

/-! ## Lemmas about appendNote -/

theorem startsWithCh_refl : ∀ l : List Char, startsWithCh l l = true := by
  intro l
  induction l with
  | nil => rfl
  | cons a as ih => simp [startsWithCh, ih]

theorem includesCh_append_of_suffix : ∀ (pre l : List Char), includesCh (pre ++ l) l = true := by
  intro pre l
  induction pre with
  | nil =>
      cases l with
      | nil => rfl
      | cons a as => simp [includesCh, startsWithCh_refl]
  | cons c p ih =>
      simp [includesCh, ih]

/-! ## Claim about appendNote -/

/-- Claim C10: appendNote is idempotent — when the notes already contain
the preset as a substring the state is unchanged, and appending the same
preset twice produces the same notes as appending it once. -/
theorem claim_C10 (current note : String) :
    (includesCh current.data note.data = true → appendNote current note = current) ∧
    appendNote (appendNote current note) note = appendNote current note := by
  constructor
  · intro h
    simp [appendNote, h]
  · cases h : includesCh current.data note.data with
    | true =>
        have h1 : appendNote current note = current := by simp [appendNote, h]
        rw [h1, h1]
    | false =>
        have hincl : includesCh (appendNote current note).data note.data = true := by
          by_cases ht : (trimChars current.data).length > 0
          · have hval : appendNote current note = current ++ "\n" ++ note := by
              simp [appendNote, h, ht]
            rw [hval]
            show includesCh ((current ++ "\n").data ++ note.data) note.data = true
            exact includesCh_append_of_suffix _ _
          · have hval : appendNote current note = current ++ note := by
              simp [appendNote, h, ht]
            rw [hval]
            show includesCh (current.data ++ note.data) note.data = true
            exact includesCh_append_of_suffix _ _
        generalize hX : appendNote current note = X at hincl ⊢
        simp [appendNote, hincl]

/-- Witness for C10 on concrete notes: the first preset-like string is
already contained, and a fresh append is idempotent. -/
theorem claim_C10_witness :
    (includesCh ("abc").data ("b").data = true → appendNote "abc" "b" = "abc") ∧
    appendNote (appendNote "abc" "b") "b" = appendNote "abc" "b" :=
  claim_C10 "abc" "b"

/-! ## Lemmas about the reactive controller -/

theorem runEffects_currency (today : Int) (old : Ctrl) (bump : Bool) (c : Ctrl) :
    (runEffects today old bump c).currency = c.currency := by
  simp only [runEffects, runResetEffect]
  split_ifs <;> rfl

theorem resolveLookup_pending_none (source : Int → FetchResult) (c : Ctrl) :
    (resolveLookup source c).pendingTarget = none := by
  cases hp : c.pendingTarget with
  | none => simp [resolveLookup, hp]
  | some t => cases hu : (fetchRate source t).update <;> simp [resolveLookup, hp, hu]

theorem handleCurrencyChange_pending (today : Int) (v : String) (c : Ctrl) :
    (handleCurrencyChange today v c).pendingTarget = c.pendingTarget := by
  simp only [handleCurrencyChange]
  split_ifs <;> rfl

theorem handleRefreshRate_pending (today : Int) (c : Ctrl) :
    (handleRefreshRate today c).pendingTarget = c.pendingTarget := by
  unfold handleRefreshRate
  split_ifs <;> rfl

theorem handleIssueDateChange_pending (today : Int) (v : Option Int) (c : Ctrl) :
    (handleIssueDateChange today v c).1.pendingTarget = c.pendingTarget := by
  simp only [handleIssueDateChange]
  split_ifs <;> rfl

theorem notForeign_settle (today : Int) (old c : Ctrl) (bump : Bool)
    (h : isForeignCur c.currency = false)
    (hp : isForeignCur old.currency = false → c.pendingTarget = none) :
    runEffects today old bump c =
      { c with exchangeRate := emptyRate, pendingTarget := none } := by
  obtain ⟨cur, idate, er, pend⟩ := c
  have hreset : runResetEffect today (⟨cur, idate, er, pend⟩ : Ctrl) =
      ⟨cur, idate, emptyRate, pend⟩ := by
    simp [runResetEffect, h]
  simp only [runEffects, hreset]
  by_cases hd : isForeignCur old.currency ≠ isForeignCur cur ∨
      old.exchangeRate.targetDate ≠ (emptyRate : ExchangeRateState).targetDate ∨
      bump = true
  · rw [if_pos hd, if_neg]
    simp [h]
  · rw [if_neg hd]
    push_neg at hd
    have hold : isForeignCur old.currency = false := by
      rw [hd.1]; exact h
    have := hp hold
    simp_all

theorem step_not_foreign_inv (today : Int) (a : Act) (c : Ctrl)
    (hInv : isForeignCur c.currency = false →
      c.exchangeRate = emptyRate ∧ c.pendingTarget = none) :
    isForeignCur (step today c a).currency = false →
    (step today c a).exchangeRate = emptyRate ∧ (step today c a).pendingTarget = none := by
  cases a with
  | currency v =>
      intro hnf
      rw [show (step today c (.currency v)) =
        runEffects today c false (handleCurrencyChange today v c) from rfl] at hnf ⊢
      rw [runEffects_currency] at hnf
      rw [notForeign_settle today c _ false hnf
        (fun hf => (handleCurrencyChange_pending today v c).trans (hInv hf).2)]
      exact ⟨rfl, rfl⟩
  | rateDate v =>
      intro hnf
      rw [show (step today c (.rateDate v)) =
        runEffects today c false (handleRateDateChange today v c) from rfl] at hnf ⊢
      rw [runEffects_currency] at hnf
      rw [notForeign_settle today c _ false hnf (fun hf => (hInv hf).2)]
      exact ⟨rfl, rfl⟩
  | prevBizDay =>
      intro hnf
      rw [show (step today c .prevBizDay) =
        runEffects today c true (handleUsePreviousBusinessDay today c) from rfl] at hnf ⊢
      rw [runEffects_currency] at hnf
      rw [notForeign_settle today c _ true hnf (fun hf => (hInv hf).2)]
      exact ⟨rfl, rfl⟩
  | refresh =>
      intro hnf
      rw [show (step today c .refresh) =
        runEffects today c true (handleRefreshRate today c) from rfl] at hnf ⊢
      rw [runEffects_currency] at hnf
      rw [notForeign_settle today c _ true hnf
        (fun hf => (handleRefreshRate_pending today c).trans (hInv hf).2)]
      exact ⟨rfl, rfl⟩
  | issue v =>
      intro hnf
      rw [show (step today c (.issue v)) =
        runEffects today c (handleIssueDateChange today v c).2
          (handleIssueDateChange today v c).1 from rfl] at hnf ⊢
      rw [runEffects_currency] at hnf
      rw [notForeign_settle today c _ _ hnf
        (fun hf => (handleIssueDateChange_pending today v c).trans (hInv hf).2)]
      exact ⟨rfl, rfl⟩
  | resolve source =>
      intro hnf
      rw [show (step today c (.resolve source)) =
        runEffects today c false (resolveLookup source c) from rfl] at hnf ⊢
      rw [runEffects_currency] at hnf
      rw [notForeign_settle today c _ false hnf
        (fun _ => resolveLookup_pending_none source c)]
      exact ⟨rfl, rfl⟩

theorem reachable_not_foreign (d : Option Int) (c : Ctrl) (hr : Reachable d c) :
    isForeignCur c.currency = false →
    c.exchangeRate = emptyRate ∧ c.pendingTarget = none := by
  induction hr with
  | init => intro _; exact ⟨rfl, rfl⟩
  | next today a hr ih => exact step_not_foreign_inv today a _ ih

/-! ## Claim C5 -/

/-- Claim C5: setting the currency to PLN from any foreign state clears
the exchange-rate triple and cancels any pending lookup, and in every
reachable state whose currency is PLN the triple is the empty/null state
with no pending lookup. -/
theorem claim_C5 :
    (∀ (today : Int) (c : Ctrl), isForeignCur c.currency = true →
      (step today c (.currency "PLN")).exchangeRate = emptyRate ∧
      (step today c (.currency "PLN")).pendingTarget = none ∧
      (step today c (.currency "PLN")).currency = "PLN") ∧
    (∀ (d : Option Int) (c : Ctrl), Reachable d c → c.currency = "PLN" →
      c.exchangeRate = emptyRate ∧ c.pendingTarget = none) := by
  constructor
  · intro today c hf
    obtain ⟨cur, idate, er, pend⟩ := c
    have hf' : isForeignCur cur = true := hf
    have hch : handleCurrencyChange today "PLN" ⟨cur, idate, er, pend⟩ =
        ⟨"PLN", idate, emptyRate, pend⟩ := by
      simp [handleCurrencyChange, show normalizeCurrency "PLN" = "PLN" from by decide]
    have hnotf : isForeignCur (⟨"PLN", idate, emptyRate, pend⟩ : Ctrl).currency = false := by
      show isForeignCur "PLN" = false
      decide
    have hset := notForeign_settle today ⟨cur, idate, er, pend⟩
      ⟨"PLN", idate, emptyRate, pend⟩ false hnotf
      (fun hc => absurd hf' (by simp_all))
    rw [show (step today ⟨cur, idate, er, pend⟩ (.currency "PLN")) =
      runEffects today ⟨cur, idate, er, pend⟩ false
        (handleCurrencyChange today "PLN" ⟨cur, idate, er, pend⟩) from rfl, hch, hset]
    exact ⟨rfl, rfl, rfl⟩
  · intro d c hr hcur
    refine reachable_not_foreign d c hr ?_
    rw [hcur]
    decide

/-- Witness for C5: a concrete foreign state switched to PLN, and the
initial session state as a reachable PLN state. -/
theorem claim_C5_witness :
    (isForeignCur wCtrlForeign.currency = true ∧
      (step 5 wCtrlForeign (.currency "PLN")).exchangeRate = emptyRate ∧
      (step 5 wCtrlForeign (.currency "PLN")).pendingTarget = none ∧
      (step 5 wCtrlForeign (.currency "PLN")).currency = "PLN") ∧
    (Reachable (some 0) (initCtrl (some 0)) ∧ (initCtrl (some 0)).currency = "PLN" ∧
      (initCtrl (some 0)).exchangeRate = emptyRate ∧
      (initCtrl (some 0)).pendingTarget = none) :=
  ⟨⟨by decide, claim_C5.1 5 wCtrlForeign (by decide)⟩,
    Reachable.init, rfl, claim_C5.2 (some 0) (initCtrl (some 0)) Reachable.init rfl⟩

/-! ## Lemmas and claim C6 -/

theorem triple_inv_runResetEffect (today : Int) (c : Ctrl)
    (h : c.exchangeRate.value.isSome = c.exchangeRate.effectiveDate.isSome) :
    (runResetEffect today c).exchangeRate.value.isSome =
      (runResetEffect today c).exchangeRate.effectiveDate.isSome := by
  unfold runResetEffect
  split_ifs <;> simp_all [emptyRate]

theorem triple_inv_runEffects (today : Int) (old : Ctrl) (bump : Bool) (c : Ctrl)
    (h : c.exchangeRate.value.isSome = c.exchangeRate.effectiveDate.isSome) :
    (runEffects today old bump c).exchangeRate.value.isSome =
      (runEffects today old bump c).exchangeRate.effectiveDate.isSome := by
  have h1 := triple_inv_runResetEffect today c h
  simp only [runEffects]
  split_ifs <;> simpa using h1

/-- Claim C6: in every reachable state the rate value is non-null
exactly when the effective date is nonempty, and every settled operation
(currency, rate-date, issue-date, refresh, previous-business-day, or
delivery of a lookup outcome, successful ones included) preserves this
equivalence. -/
theorem claim_C6 :
    (∀ (d : Option Int) (c : Ctrl), Reachable d c →
      c.exchangeRate.value.isSome = c.exchangeRate.effectiveDate.isSome) ∧
    (∀ (today : Int) (c : Ctrl) (a : Act),
      c.exchangeRate.value.isSome = c.exchangeRate.effectiveDate.isSome →
      (step today c a).exchangeRate.value.isSome =
        (step today c a).exchangeRate.effectiveDate.isSome) := by
  have hstep : ∀ (today : Int) (c : Ctrl) (a : Act),
      c.exchangeRate.value.isSome = c.exchangeRate.effectiveDate.isSome →
      (step today c a).exchangeRate.value.isSome =
        (step today c a).exchangeRate.effectiveDate.isSome := by
    intro today c a h
    cases a with
    | currency v =>
        refine triple_inv_runEffects today c false _ ?_
        simp only [handleCurrencyChange]
        split_ifs <;> simp [emptyRate]
    | rateDate v =>
        refine triple_inv_runEffects today c false _ ?_
        simp [handleRateDateChange]
    | prevBizDay =>
        refine triple_inv_runEffects today c true _ ?_
        simp [handleUsePreviousBusinessDay]
    | refresh =>
        refine triple_inv_runEffects today c true _ ?_
        simp only [handleRefreshRate]
        split_ifs <;> simp_all
    | issue v =>
        refine triple_inv_runEffects today c _ _ ?_
        simp only [handleIssueDateChange]
        split_ifs <;> simp_all
    | resolve source =>
        refine triple_inv_runEffects today c false _ ?_
        cases hp : c.pendingTarget with
        | none => simpa [resolveLookup, hp] using h
        | some t =>
            cases hu : (fetchRate source t).update with
            | none => simpa [resolveLookup, hp, hu] using h
            | some o => cases o <;> simp [resolveLookup, hp, hu, applyOutcome]
  constructor
  · intro d c hr
    induction hr with
    | init => rfl
    | next today a hr ih => exact hstep today _ a ih
  · exact hstep

/-- Witness for C6: the invariant at the initial state, and its
preservation by a successful lookup delivery at a concrete foreign
state. -/
theorem claim_C6_witness :
    (Reachable (some 0) (initCtrl (some 0)) ∧
      (initCtrl (some 0)).exchangeRate.value.isSome =
        (initCtrl (some 0)).exchangeRate.effectiveDate.isSome) ∧
    (wCtrlForeign.exchangeRate.value.isSome =
        wCtrlForeign.exchangeRate.effectiveDate.isSome ∧
      (step 5 wCtrlForeign (.resolve wSrcOk)).exchangeRate.value.isSome =
        (step 5 wCtrlForeign (.resolve wSrcOk)).exchangeRate.effectiveDate.isSome) :=
  ⟨⟨Reachable.init, claim_C6.1 (some 0) (initCtrl (some 0)) Reachable.init⟩,
    ⟨by decide, claim_C6.2 5 wCtrlForeign (.resolve wSrcOk) (by decide)⟩⟩

/-! ## Claim C7 -/

/-- Claim C7: on a foreign-currency invoice, an issue-date change leaves
an explicitly overridden rate target date (nonempty, different from the
default computed from the old issue date) completely untouched and
triggers no new fetch; when the target date was the default or empty, it
is replaced by the default computed from the new issue date, with a
fetch triggered exactly when that new default differs from the current
target date. -/
theorem claim_C7 (today : Int) (c : Ctrl) (v : Option Int)
    (hf : isForeignCur c.currency = true) :
    (c.exchangeRate.targetDate ≠ none →
      c.exchangeRate.targetDate ≠ some (getPreviousBusinessDay today c.issueDate) →
      (step today c (.issue v)).exchangeRate = c.exchangeRate ∧
      (step today c (.issue v)).pendingTarget = c.pendingTarget ∧
      (step today c (.issue v)).issueDate = v) ∧
    ((c.exchangeRate.targetDate = none ∨
        c.exchangeRate.targetDate = some (getPreviousBusinessDay today c.issueDate)) →
      (c.exchangeRate.targetDate ≠ some (getPreviousBusinessDay today v) →
        (step today c (.issue v)).exchangeRate.targetDate =
          some (getPreviousBusinessDay today v) ∧
        (step today c (.issue v)).exchangeRate.effectiveDate = none ∧
        (step today c (.issue v)).exchangeRate.value = none ∧
        (step today c (.issue v)).pendingTarget =
          some (getPreviousBusinessDay today v)) ∧
      (c.exchangeRate.targetDate = some (getPreviousBusinessDay today v) →
        (step today c (.issue v)).exchangeRate = c.exchangeRate ∧
        (step today c (.issue v)).pendingTarget = c.pendingTarget)) := by
  obtain ⟨cur, idate, ⟨tgt, ed, val⟩, pend⟩ := c
  simp only [Ctrl.mk.injEq] at *
  constructor
  · intro ht hnd
    have hch : handleIssueDateChange today v ⟨cur, idate, ⟨tgt, ed, val⟩, pend⟩ =
        (⟨cur, v, ⟨tgt, ed, val⟩, pend⟩, false) := by
      simp only [handleIssueDateChange]
      rw [if_pos hf, if_neg]
      simp only [not_and_or]
      left
      push_neg
      exact ⟨by simpa using ht, by simpa using hnd⟩
    have hr : runResetEffect today (⟨cur, v, ⟨tgt, ed, val⟩, pend⟩ : Ctrl) =
        ⟨cur, v, ⟨tgt, ed, val⟩, pend⟩ := by
      simp only [runResetEffect]
      rw [if_pos hf, if_neg (by simpa using ht)]
    rw [show (step today ⟨cur, idate, ⟨tgt, ed, val⟩, pend⟩ (.issue v)) =
      runEffects today ⟨cur, idate, ⟨tgt, ed, val⟩, pend⟩
        (handleIssueDateChange today v ⟨cur, idate, ⟨tgt, ed, val⟩, pend⟩).2
        (handleIssueDateChange today v ⟨cur, idate, ⟨tgt, ed, val⟩, pend⟩).1 from rfl,
      hch]
    simp only [runEffects, hr]
    rw [if_neg]
    · exact ⟨rfl, rfl, rfl⟩
    · simp
  · intro hdef
    constructor
    · intro hne
      have hch : handleIssueDateChange today v ⟨cur, idate, ⟨tgt, ed, val⟩, pend⟩ =
          (⟨cur, v, ⟨some (getPreviousBusinessDay today v), none, none⟩, pend⟩, true) := by
        simp only [handleIssueDateChange]
        rw [if_pos hf, if_pos]
        exact ⟨by simpa using hdef, by simpa using hne⟩
      have hr : runResetEffect today
          (⟨cur, v, ⟨some (getPreviousBusinessDay today v), none, none⟩, pend⟩ : Ctrl) =
          ⟨cur, v, ⟨some (getPreviousBusinessDay today v), none, none⟩, pend⟩ := by
        simp only [runResetEffect]
        rw [if_pos hf, if_neg (by simp)]
      rw [show (step today ⟨cur, idate, ⟨tgt, ed, val⟩, pend⟩ (.issue v)) =
        runEffects today ⟨cur, idate, ⟨tgt, ed, val⟩, pend⟩
          (handleIssueDateChange today v ⟨cur, idate, ⟨tgt, ed, val⟩, pend⟩).2
          (handleIssueDateChange today v ⟨cur, idate, ⟨tgt, ed, val⟩, pend⟩).1 from rfl,
        hch]
      simp only [runEffects, hr]
      rw [if_pos (by right; right; trivial), if_pos (by exact ⟨hf, by simp⟩)]
      exact ⟨rfl, rfl, rfl, rfl⟩
    · intro heq
      have hch : handleIssueDateChange today v ⟨cur, idate, ⟨tgt, ed, val⟩, pend⟩ =
          (⟨cur, v, ⟨tgt, ed, val⟩, pend⟩, false) := by
        simp only [handleIssueDateChange]
        rw [if_pos hf, if_neg]
        simp only [not_and_or]
        right
        simpa using heq
      have htne : tgt ≠ none := by simp [heq]
      have hr : runResetEffect today (⟨cur, v, ⟨tgt, ed, val⟩, pend⟩ : Ctrl) =
          ⟨cur, v, ⟨tgt, ed, val⟩, pend⟩ := by
        simp only [runResetEffect]
        rw [if_pos hf, if_neg (by simpa using htne)]
      rw [show (step today ⟨cur, idate, ⟨tgt, ed, val⟩, pend⟩ (.issue v)) =
        runEffects today ⟨cur, idate, ⟨tgt, ed, val⟩, pend⟩
          (handleIssueDateChange today v ⟨cur, idate, ⟨tgt, ed, val⟩, pend⟩).2
          (handleIssueDateChange today v ⟨cur, idate, ⟨tgt, ed, val⟩, pend⟩).1 from rfl,
        hch]
      simp only [runEffects, hr]
      rw [if_neg]
      · exact ⟨rfl, rfl⟩
      · simp

/-- Witness for C7: an override state (target 3, old default 8 from
issue date 10, new default 19 from issue date 20 with clock 17). -/
theorem claim_C7_witness :
    (wCtrlOverride.exchangeRate.targetDate ≠ none →
      wCtrlOverride.exchangeRate.targetDate ≠
        some (getPreviousBusinessDay 17 wCtrlOverride.issueDate) →
      (step 17 wCtrlOverride (.issue (some 20))).exchangeRate =
        wCtrlOverride.exchangeRate ∧
      (step 17 wCtrlOverride (.issue (some 20))).pendingTarget =
        wCtrlOverride.pendingTarget ∧
      (step 17 wCtrlOverride (.issue (some 20))).issueDate = some 20) ∧
    ((wCtrlOverride.exchangeRate.targetDate = none ∨
        wCtrlOverride.exchangeRate.targetDate =
          some (getPreviousBusinessDay 17 wCtrlOverride.issueDate)) →
      (wCtrlOverride.exchangeRate.targetDate ≠
          some (getPreviousBusinessDay 17 (some 20)) →
        (step 17 wCtrlOverride (.issue (some 20))).exchangeRate.targetDate =
          some (getPreviousBusinessDay 17 (some 20)) ∧
        (step 17 wCtrlOverride (.issue (some 20))).exchangeRate.effectiveDate = none ∧
        (step 17 wCtrlOverride (.issue (some 20))).exchangeRate.value = none ∧
        (step 17 wCtrlOverride (.issue (some 20))).pendingTarget =
          some (getPreviousBusinessDay 17 (some 20))) ∧
      (wCtrlOverride.exchangeRate.targetDate =
          some (getPreviousBusinessDay 17 (some 20)) →
        (step 17 wCtrlOverride (.issue (some 20))).exchangeRate =
          wCtrlOverride.exchangeRate ∧
        (step 17 wCtrlOverride (.issue (some 20))).pendingTarget =
          wCtrlOverride.pendingTarget)) :=
  claim_C7 17 wCtrlOverride (some 20) (by decide)

end InvoiceGen
